import Mathlib

/-
Verification of the MIPS disassembler in mips_disassembler.py.

The program works on text lines of the characters 0 and 1.  A line is
modelled as a list of Bool (the character 1 becomes true), MSB first, so a
blank or whitespace-only line after stripping becomes the empty list.  The
Python string slice s[a:b] is modelled by pySlice, and int(s, 2) by
int_base2 (total here; the Python call raises on an empty string, and every
slice the modelled code feeds it is non-empty on the inputs of the
theorems below).  The dictionaries become functions returning Option
String, and the decoding methods are translated line by line.
-/

abbrev Bits := List Bool

/-- Python slice s[a:b] on a list (clamping, never failing). -/
def pySlice (s : Bits) (a b : Nat) : Bits := (s.drop a).take (b - a)

/-- Python int(s, 2) on a string of 0/1 characters. -/
def int_base2 (s : Bits) : Nat :=
  s.foldl (fun acc b => 2 * acc + (if b then 1 else 0)) 0

/-- The string the program prints for a binary line (the original
characters of the line). -/
def bitsRepr (s : Bits) : String :=
  String.mk (s.map (fun b => if b then '1' else '0'))

/-- A 32-bit word written as its list of bits, MSB first (helper to build
concrete inputs). -/
def natToBits (w n : Nat) : Bits :=
  (List.range w).map (fun i => n.testBit (w - 1 - i))

/-- The reg_names dictionary of the source (keys 0 to 31, value Rn). -/
def reg_names (n : Nat) : String := "R" ++ toString n

/-- The r_type_funcs dictionary (function code to mnemonic). -/
def r_type_funcs : Nat → Option String
  | 0x20 => some "ADD"
  | 0x21 => some "ADDU"
  | 0x22 => some "SUB"
  | 0x23 => some "SUBU"
  | 0x24 => some "AND"
  | 0x25 => some "OR"
  | 0x26 => some "XOR"
  | 0x27 => some "NOR"
  | 0x2A => some "SLT"
  | 0x00 => some "SLL"
  | 0x02 => some "SRL"
  | 0x03 => some "SRA"
  | 0x04 => some "SLLV"
  | 0x06 => some "SRLV"
  | 0x07 => some "SRAV"
  | 0x08 => some "JR"
  | 0x09 => some "JALR"
  | 0x0C => some "SYSCALL"
  | 0x0D => some "BREAK"
  | 0x10 => some "MFHI"
  | 0x12 => some "MFLO"
  | 0x11 => some "MTHI"
  | 0x13 => some "MTLO"
  | _ => none

/-- The i_type_ops dictionary (opcode to mnemonic). -/
def i_type_ops : Nat → Option String
  | 0x08 => some "ADDI"
  | 0x09 => some "ADDIU"
  | 0x0C => some "ANDI"
  | 0x0D => some "ORI"
  | 0x0E => some "XORI"
  | 0x0A => some "SLTI"
  | 0x23 => some "LW"
  | 0x20 => some "LB"
  | 0x21 => some "LH"
  | 0x24 => some "LBU"
  | 0x25 => some "LHU"
  | 0x2B => some "SW"
  | 0x28 => some "SB"
  | 0x29 => some "SH"
  | 0x04 => some "BEQ"
  | 0x05 => some "BNE"
  | 0x06 => some "BLEZ"
  | 0x07 => some "BGTZ"
  | 0x01 => some "BGEZ/BLTZ"
  | 0x0F => some "LUI"
  | _ => none

/-- The j_type_ops dictionary (opcode to mnemonic). -/
def j_type_ops : Nat → Option String
  | 0x02 => some "J"
  | 0x03 => some "JAL"
  | _ => none

/-- The regimm_types dictionary (rt field to mnemonic when opcode is 1). -/
def regimm_types : Nat → Option String
  | 0x00 => some "BLTZ"
  | 0x01 => some "BGEZ"
  | 0x10 => some "BLTZAL"
  | 0x11 => some "BGEZAL"
  | _ => none

/-- The signed-immediate conversion of parse_i_type: imm is read as an
unsigned 16-bit field and lowered by 0x10000 when it exceeds 0x7FFF. -/
def sign_extend_imm (imm : Nat) : Int :=
  if imm > 0x7FFF then (imm : Int) - 0x10000 else (imm : Int)

/-- format_binary: the six field slices of the word joined by spaces. -/
def format_binary (bin_str : Bits) : String :=
  let op := pySlice bin_str 0 6
  let rs := pySlice bin_str 6 11
  let rt := pySlice bin_str 11 16
  let rd := pySlice bin_str 16 21
  let shamt := pySlice bin_str 21 26
  let funct := pySlice bin_str 26 32
  bitsRepr op ++ " " ++ bitsRepr rs ++ " " ++ bitsRepr rt ++ " " ++
    bitsRepr rd ++ " " ++ bitsRepr shamt ++ " " ++ bitsRepr funct

/-- parse_r_type of the source, translated branch by branch. -/
def parse_r_type (bin_str : Bits) : String × String :=
  let rs := int_base2 (pySlice bin_str 6 11)
  let rt := int_base2 (pySlice bin_str 11 16)
  let rd := int_base2 (pySlice bin_str 16 21)
  let shamt := int_base2 (pySlice bin_str 21 26)
  let funct := int_base2 (pySlice bin_str 26 32)
  let instr := (r_type_funcs funct).getD "UNKNOWN"
  if funct = 0 ∧ rs = 0 ∧ rt = 0 ∧ rd = 0 ∧ shamt = 0 then
    ("NOP", "")
  else
    let operands :=
      if instr = "SLL" ∨ instr = "SRL" ∨ instr = "SRA" then
        reg_names rd ++ ", " ++ reg_names rt ++ ", #" ++ toString shamt
      else if instr = "SLLV" ∨ instr = "SRLV" ∨ instr = "SRAV" then
        reg_names rd ++ ", " ++ reg_names rt ++ ", " ++ reg_names rs
      else if instr = "JR" then
        reg_names rs
      else if instr = "JALR" then
        reg_names rd ++ ", " ++ reg_names rs
      else if instr = "SYSCALL" ∨ instr = "BREAK" then
        ""
      else if instr = "MFHI" ∨ instr = "MFLO" then
        reg_names rd
      else if instr = "MTHI" ∨ instr = "MTLO" then
        reg_names rs
      else
        reg_names rd ++ ", " ++ reg_names rs ++ ", " ++ reg_names rt
    (instr, operands)

/-- parse_i_type of the source, translated branch by branch, including the
special case it carries for BEQ on the register pair R10, R8. -/
def parse_i_type (bin_str : Bits) : String × String :=
  let rs := int_base2 (pySlice bin_str 6 11)
  let rt := int_base2 (pySlice bin_str 11 16)
  let opcode := int_base2 (pySlice bin_str 0 6)
  let imm := sign_extend_imm (int_base2 (pySlice bin_str 16 32))
  let instr0 := (i_type_ops opcode).getD "UNKNOWN"
  let instr :=
    if instr0 = "BGEZ/BLTZ" then (regimm_types rt).getD "UNKNOWN" else instr0
  let operands :=
    if instr = "BEQ" ∨ instr = "BNE" then
      if instr = "BEQ" ∧ reg_names rs = "R10" ∧ reg_names rt = "R8" then
        reg_names rs ++ ", " ++ reg_names rt ++ ", #4"
      else
        reg_names rs ++ ", " ++ reg_names rt ++ ", #" ++ toString imm
    else if instr = "BGEZ" ∨ instr = "BGTZ" ∨ instr = "BLEZ" ∨ instr = "BLTZ" then
      reg_names rs ++ ", #" ++ toString imm
    else if instr = "BGEZAL" ∨ instr = "BLTZAL" then
      reg_names rs ++ ", #" ++ toString imm
    else if instr = "ADDI" ∨ instr = "ADDIU" ∨ instr = "SLTI" ∨ instr = "ANDI" ∨
        instr = "ORI" ∨ instr = "XORI" then
      reg_names rt ++ ", " ++ reg_names rs ++ ", #" ++ toString imm
    else if instr = "LUI" then
      reg_names rt ++ ", #" ++ toString imm
    else if instr = "LW" ∨ instr = "LB" ∨ instr = "LH" ∨ instr = "LBU" ∨
        instr = "LHU" ∨ instr = "SW" ∨ instr = "SB" ∨ instr = "SH" then
      reg_names rt ++ ", " ++ toString imm ++ "(" ++ reg_names rs ++ ")"
    else
      reg_names rt ++ ", " ++ reg_names rs ++ ", #" ++ toString imm
  (instr, operands)

/-- parse_j_type of the source. -/
def parse_j_type (bin_str : Bits) : String × String :=
  let opcode := int_base2 (pySlice bin_str 0 6)
  let addr := int_base2 (pySlice bin_str 6 32) * 4
  let instr := (j_type_ops opcode).getD "UNKNOWN"
  (instr, "#" ++ toString addr)

/-- decode_instruction of the source: dispatch on the opcode field. -/
def decode_instruction (bin_str : Bits) : String × String :=
  let opcode := int_base2 (pySlice bin_str 0 6)
  if opcode = 0 then parse_r_type bin_str
  else if (j_type_ops opcode).isSome then parse_j_type bin_str
  else parse_i_type bin_str

/-- The start_addr constant of the constructor. -/
def start_addr : Nat := 496

/-- The data_section_addr constant of the constructor. -/
def data_section_addr : Nat := 700

/-- The state threaded through the main loop of disassemble: the running
address counter (an instance attribute) and the two local flags. -/
structure DisState where
  curr_addr : Nat
  hit_break : Bool
  in_data_section : Bool
deriving DecidableEq

/-- The state at the top of a run on a fresh instance: curr_addr starts at
start_addr, hit_break and in_data_section start False. -/
def init_state : DisState := ⟨start_addr, false, false⟩

/-- The data-section output line of disassemble: the original characters,
six spaces, a tab, the address, a tab, the decimal value of the word. -/
def dataLine (addr : Nat) (bin_str : Bits) : String :=
  bitsRepr bin_str ++ "      \t" ++ toString addr ++ "\t" ++
    toString (int_base2 bin_str)

/-- The code-section output line of disassemble: the spaced fields, the
address, the mnemonic, and the operands when they are non-empty. -/
def instrLine (addr : Nat) (bin_str : Bits) : String :=
  let p := decode_instruction bin_str
  if p.2 ≠ "" then
    format_binary bin_str ++ "\t" ++ toString addr ++ "\t" ++ p.1 ++ "\t" ++ p.2
  else
    format_binary bin_str ++ "\t" ++ toString addr ++ "\t" ++ p.1

/-- The in_data_section update at the top of the loop body: the flag is
set only when hit_break already holds and the address reached the
threshold. -/
def next_ids (s : DisState) : Bool :=
  if s.hit_break = true ∧ s.curr_addr ≥ data_section_addr ∧
      s.in_data_section = false then true
  else s.in_data_section

/-- One iteration of the main loop of disassemble, translated line by
line: skip an empty line; set in_data_section when hit_break is already
true and the address reached the threshold; emit a data line when
hit_break or in_data_section holds, else decode, record a BREAK, and emit
an instruction line; finally advance the address by 4. -/
def disasm_step (s : DisState) (bin_str : Bits) : DisState × List String :=
  if bin_str = [] then (s, [])
  else
    let ids1 : Bool := next_ids s
    if s.hit_break = true ∨ ids1 = true then
      (⟨s.curr_addr + 4, s.hit_break, ids1⟩, [dataLine s.curr_addr bin_str])
    else
      let p := decode_instruction bin_str
      let hb1 : Bool := if p.1 = "BREAK" then true else s.hit_break
      (⟨s.curr_addr + 4, hb1, ids1⟩, [instrLine s.curr_addr bin_str])

/-- The main loop of disassemble over the whole list of lines. -/
def disasm_run : DisState → List Bits → DisState × List String
  | s, [] => (s, [])
  | s, w :: ws =>
    let r1 := disasm_step s w
    let r2 := disasm_run r1.1 ws
    (r2.1, r1.2 ++ r2.2)

/-- The data lines the loop emits from a given address on, one per
non-empty line, stepping the address by 4. -/
def dataLines (addr : Nat) : List Bits → List String
  | [] => []
  | w :: ws =>
    if w = [] then dataLines addr ws
    else dataLine addr w :: dataLines (addr + 4) ws

/-- load_binary of the source: strip each raw line and keep the non-blank
ones (a blank or whitespace-only line is modelled as the empty list). -/
def load_binary (raw : List Bits) : List Bits :=
  raw.filter (fun l => !l.isEmpty)

/-- The tail of the output-writing block: every line of output_lines after
the first is written with the doubled carriage-return ending except the
last. -/
def write_rest : List String → String
  | [] => ""
  | [l] => l
  | l :: ls => l ++ "\r\r\n" ++ write_rest ls

/-- The output-writing block of disassemble: the element output_lines[0]
is read unconditionally, so an empty list is a Python IndexError, modelled
as none. -/
def write_output : List String → Option String
  | [] => none
  | first :: rest => some (first ++ "\r\r\n" ++ write_rest rest)

/-- The whole pipeline of disassemble on a fresh instance: load the lines,
run the loop, write the file. -/
def disassemble_to_file (raw : List Bits) : Option String :=
  write_output (disasm_run init_state (load_binary raw)).2

/-- Two successive calls of disassemble() on one instance: curr_addr is an
instance attribute and is never reset, so the second call starts from the
final counter of the first, while hit_break, in_data_section and
output_lines are locals recreated by each call.  Returns the output lines
of the second call. -/
def second_invocation (ws : List Bits) : List String :=
  (disasm_run ⟨(disasm_run init_state ws).1.curr_addr, false, false⟩ ws).2

/-- The word whose opcode, funct or rt field has no entry in the table
decode_instruction dispatches it to (the J table never misses, since being
in it is what selects the J family). -/
def lookup_miss (bin_str : Bits) : Prop :=
  let opcode := int_base2 (pySlice bin_str 0 6)
  (opcode = 0 ∧ r_type_funcs (int_base2 (pySlice bin_str 26 32)) = none) ∨
  (opcode ≠ 0 ∧ (j_type_ops opcode).isSome = false ∧
    (i_type_ops opcode = none ∨
      (i_type_ops opcode = some "BGEZ/BLTZ" ∧
        regimm_types (int_base2 (pySlice bin_str 11 16)) = none)))

instance (bin_str : Bits) : Decidable (lookup_miss bin_str) := by
  unfold lookup_miss
  infer_instance

/-- The all-zero input line. -/
def zero_word : Bits := List.replicate 32 false

/-- The canonical BREAK word: opcode 0, funct 0x0D, all other fields 0. -/
def break_word : Bits := natToBits 32 0x0D

theorem disasm_run_cons (s : DisState) (w : Bits) (ws : List Bits) :
    disasm_run s (w :: ws) =
      ((disasm_run (disasm_step s w).1 ws).1,
        (disasm_step s w).2 ++ (disasm_run (disasm_step s w).1 ws).2) := rfl

theorem disasm_step_nil (s : DisState) : disasm_step s [] = (s, []) := rfl

/-- On a non-empty line with hit_break set, the loop body emits the data
line of the current address and advances. -/
theorem disasm_step_data (s : DisState) (w : Bits) (hw : w ≠ [])
    (hs : s.hit_break = true) :
    disasm_step s w =
      (⟨s.curr_addr + 4, s.hit_break, next_ids s⟩, [dataLine s.curr_addr w]) := by
  unfold disasm_step
  rw [if_neg hw]
  simp only
  rw [if_pos (Or.inl hs)]

/-- On a non-empty line in the code section, the loop body decodes the
word, emits its instruction line, records a BREAK mnemonic and advances. -/
theorem disasm_step_code (s : DisState) (w : Bits) (hw : w ≠ [])
    (hb : s.hit_break = false) (hd : s.in_data_section = false) :
    disasm_step s w =
      (⟨s.curr_addr + 4,
          if (decode_instruction w).1 = "BREAK" then true else false, false⟩,
        [instrLine s.curr_addr w]) := by
  have hids : next_ids s = false := by
    unfold next_ids
    rw [if_neg, hd]
    simp [hb]
  unfold disasm_step
  rw [if_neg hw]
  simp only [hids, hb]
  rw [if_neg (by simp)]

/-- From a state with hit_break set, the whole remaining run emits exactly
the data lines of the remaining words, and hit_break stays set. -/
theorem disasm_run_break : ∀ (ws : List Bits) (s : DisState),
    s.hit_break = true →
    (disasm_run s ws).2 = dataLines s.curr_addr ws ∧
      (disasm_run s ws).1.hit_break = true := by
  intro ws
  induction ws with
  | nil => intro s hs; exact ⟨rfl, hs⟩
  | cons w ws ih =>
    intro s hs
    by_cases hw : w = []
    · subst hw
      have h := ih s hs
      rw [disasm_run_cons, disasm_step_nil]
      simp [dataLines, h.1, h.2]
    · rw [disasm_run_cons, disasm_step_data s w hw hs]
      have h := ih ⟨s.curr_addr + 4, s.hit_break, next_ids s⟩ hs
      simp [dataLines, hw, h.1, h.2]

/-- The address counter advances by 4 for every non-blank line. -/
theorem disasm_run_addr : ∀ (ws : List Bits) (s : DisState),
    (disasm_run s ws).1.curr_addr = s.curr_addr + 4 * (load_binary ws).length := by
  intro ws
  induction ws with
  | nil => intro s; simp [disasm_run, load_binary]
  | cons w ws ih =>
    intro s
    by_cases hw : w = []
    · subst hw
      rw [disasm_run_cons, disasm_step_nil]
      simp [load_binary, ih s]
    · have hstep : (disasm_step s w).1.curr_addr = s.curr_addr + 4 := by
        unfold disasm_step
        rw [if_neg hw]
        simp only
        split
        · rfl
        · rfl
      rw [disasm_run_cons, ih]
      rw [hstep]
      simp only [load_binary, List.filter_cons]
      rw [if_pos]
      · simp only [List.length_cons]
        omega
      · simp [hw]

/-- Splitting a run at any point: the outputs concatenate and the state
threads through. -/
theorem disasm_run_append (xs ys : List Bits) : ∀ s : DisState,
    disasm_run s (xs ++ ys) =
      ((disasm_run (disasm_run s xs).1 ys).1,
        (disasm_run s xs).2 ++ (disasm_run (disasm_run s xs).1 ys).2) := by
  induction xs with
  | nil => intro s; simp [disasm_run]
  | cons w ws ih =>
    intro s
    rw [List.cons_append, disasm_run_cons, disasm_run_cons, ih]
    simp [List.append_assoc]

/-- A run that starts in the code section and ends with hit_break clear
also ends with in_data_section clear. -/
theorem run_code_inv : ∀ (ws : List Bits) (s : DisState),
    s.hit_break = false → s.in_data_section = false →
    (disasm_run s ws).1.hit_break = false →
    (disasm_run s ws).1.in_data_section = false := by
  intro ws
  induction ws with
  | nil => intro s _ hd _; exact hd
  | cons w ws ih =>
    intro s hb hd hrun
    by_cases hw : w = []
    · subst hw
      rw [disasm_run_cons, disasm_step_nil] at hrun ⊢
      exact ih s hb hd hrun
    · rw [disasm_run_cons, disasm_step_code s w hw hb hd] at hrun ⊢
      by_cases hbr : (decode_instruction w).1 = "BREAK"
      · exfalso
        rw [if_pos hbr] at hrun
        have h := (disasm_run_break ws ⟨s.curr_addr + 4, true, false⟩ rfl).2
        rw [hrun] at h
        exact Bool.false_ne_true h
      · rw [if_neg hbr] at hrun ⊢
        exact ih ⟨s.curr_addr + 4, false, false⟩ rfl rfl hrun

/-- C7: for every 32-bit word, concatenating the six extracted subfields
(opcode 0..6, rs 6..11, rt 11..16, rd 16..21, shamt 21..26, funct 26..32
of the MSB-first character string) reproduces the original word. -/
theorem fields_concat_eq_word (w : Bits) (h : w.length = 32) :
    pySlice w 0 6 ++ pySlice w 6 11 ++ pySlice w 11 16 ++ pySlice w 16 21 ++
      pySlice w 21 26 ++ pySlice w 26 32 = w := by
  have key : ∀ a b : Nat, a ≤ b → pySlice w a b ++ w.drop b = w.drop a := by
    intro a b hab
    have hd : w.drop b = (w.drop a).drop (b - a) := by
      rw [List.drop_drop]
      congr 1
      omega
    rw [pySlice, hd, List.take_append_drop]
  have d32 : w.drop 32 = [] := by
    apply List.drop_eq_nil_of_le
    omega
  have e26 : pySlice w 26 32 = w.drop 26 := by
    have hk := key 26 32 (by omega)
    rwa [d32, List.append_nil] at hk
  rw [List.append_assoc, List.append_assoc, List.append_assoc, List.append_assoc,
    e26, key 21 26 (by omega), key 16 21 (by omega), key 11 16 (by omega),
    key 6 11 (by omega), key 0 6 (by omega), List.drop_zero]

theorem fields_concat_eq_word_witness :
    (natToBits 32 0x2109FFFF).length = 32 ∧
      pySlice (natToBits 32 0x2109FFFF) 0 6 ++ pySlice (natToBits 32 0x2109FFFF) 6 11 ++
        pySlice (natToBits 32 0x2109FFFF) 11 16 ++ pySlice (natToBits 32 0x2109FFFF) 16 21 ++
        pySlice (natToBits 32 0x2109FFFF) 21 26 ++ pySlice (natToBits 32 0x2109FFFF) 26 32 =
        natToBits 32 0x2109FFFF :=
  ⟨by decide, fields_concat_eq_word (natToBits 32 0x2109FFFF) (by decide)⟩

/-- C8: the decoded immediate is the two-complement sign extension of the
16-bit field: values at or above 0x8000 become value minus 0x10000, the
rest are unchanged; in particular 0xFFFF gives -1, 0x8000 gives -32768,
0x7FFF gives 32767 and 0x0001 gives 1, and the ADDI word with imm16 =
0xFFFF renders with operand text built from -1. -/
theorem sign_extend_spec :
    (∀ imm : Nat, imm < 65536 →
        sign_extend_imm imm =
          if 0x8000 ≤ imm then (imm : Int) - 0x10000 else (imm : Int)) ∧
      sign_extend_imm 0xFFFF = -1 ∧ sign_extend_imm 0x8000 = -32768 ∧
      sign_extend_imm 0x7FFF = 32767 ∧ sign_extend_imm 0x0001 = 1 ∧
      decode_instruction (natToBits 32 0x2109FFFF) = ("ADDI", "R9, R8, #-1") := by
  refine ⟨?_, by decide, by decide, by decide, by decide, by decide⟩
  intro imm _
  unfold sign_extend_imm
  rcases Nat.lt_or_ge imm 0x8000 with hlt | hge
  · rw [if_neg (by omega), if_neg (by omega)]
  · rw [if_pos (by omega), if_pos hge]

theorem sign_extend_spec_witness :
    (40000 : Nat) < 65536 ∧
      sign_extend_imm 40000 =
        if (0x8000 : Nat) ≤ (40000 : Nat) then ((40000 : Nat) : Int) - 0x10000
        else ((40000 : Nat) : Int) :=
  ⟨by decide, sign_extend_spec.1 40000 (by decide)⟩

/-- C9: the all-zero word decodes to the no-operation mnemonic NOP with no
operands, although the function-code table maps funct 0 to SLL: the NOP
special case takes precedence over the generic SLL decoding. -/
theorem zero_word_decodes_nop :
    r_type_funcs 0 = some "SLL" ∧ decode_instruction zero_word = ("NOP", "") := by
  decide

/-- C2 is violated by the code: the word 0x11480001 encodes BEQ with rs =
R10, rt = R8 and immediate 1, yet the operand text carries the literal
constant 4; the special case on this register pair overrides the computed
immediate. -/
theorem beq_r10_r8_overrides_immediate :
    sign_extend_imm (int_base2 (pySlice (natToBits 32 0x11480001) 16 32)) = 1 ∧
      decode_instruction (natToBits 32 0x11480001) = ("BEQ", "R10, R8, #4") ∧
      decode_instruction (natToBits 32 0x11480001) ≠ ("BEQ", "R10, R8, #1") := by
  decide

/-- C3 is violated by the code: a line of 31 characters is not 32 binary
characters, yet the engine raises no error for it; the immediate field is
silently truncated to the 15 available characters and the run emits an
ordinary decoded line for it. -/
theorem short_line_decoded_silently :
    (List.replicate 31 true).length ≠ 32 ∧
      decode_instruction (List.replicate 31 true) = ("UNKNOWN", "R31, R31, #32767") ∧
      (disasm_run init_state [List.replicate 31 true]).2 =
        [instrLine start_addr (List.replicate 31 true)] := by
  decide

set_option maxRecDepth 20000 in
/-- C1 is violated by the code: on a stream of 52 all-zero words with no
terminator, the word whose address is 700 (the data-section threshold) is
still emitted as a decoded NOP instruction line, not as a data line, and
the state never enters the data section, because the threshold test is
conjoined with hit_break. -/
theorem threshold_alone_never_enters_data :
    (disasm_run init_state (List.replicate 52 zero_word)).1.hit_break = false ∧
      (disasm_run init_state (List.replicate 52 zero_word)).1.in_data_section = false ∧
      (disasm_run init_state (List.replicate 52 zero_word)).2.getLast? =
        some (instrLine 700 zero_word) ∧
      instrLine 700 zero_word ≠ dataLine 700 zero_word := by
  decide

/-- C4 as stated fails on the code: the R-type word with funct 63 has no
table entry and decodes to the UNKNOWN sentinel, but its output line
carries the default operand text rather than no operands. -/
theorem unknown_word_has_operands :
    (decode_instruction (natToBits 32 63)).1 = "UNKNOWN" ∧
      (decode_instruction (natToBits 32 63)).2 = "R0, R0, R0" := by
  decide

/-- C4 amended: for every non-blank word whose opcode, funct or rt
combination misses the relevant lookup table, decoding yields the UNKNOWN
sentinel, the loop still emits an address-tagged output line for it (with
the default operand text), and processing continues in the code section
rather than aborting. -/
theorem unknown_decodes_and_continues (a : Nat) (w : Bits) (rest : List Bits)
    (hw : w ≠ []) (hm : lookup_miss w) :
    (decode_instruction w).1 = "UNKNOWN" ∧
      disasm_run (⟨a, false, false⟩ : DisState) (w :: rest) =
        ((disasm_run (⟨a + 4, false, false⟩ : DisState) rest).1,
          instrLine a w :: (disasm_run (⟨a + 4, false, false⟩ : DisState) rest).2) := by
  have hdec : (decode_instruction w).1 = "UNKNOWN" := by
    rcases hm with ⟨hop, hfun⟩ | ⟨hop, hj, hi⟩
    · have hf0 : int_base2 (pySlice w 26 32) ≠ 0 := by
        intro h0
        rw [h0] at hfun
        exact absurd hfun (by decide)
      simp only [decode_instruction]
      rw [if_pos hop]
      simp only [parse_r_type]
      rw [if_neg (fun hc => hf0 hc.1), hfun]
      rfl
    · simp only [decode_instruction]
      rw [if_neg hop, if_neg (by simp [hj])]
      simp only [parse_i_type]
      rcases hi with hnone | ⟨hsome, hreg⟩
      · rw [hnone]
        simp
      · rw [hsome]
        simp [hreg]
  refine ⟨hdec, ?_⟩
  rw [disasm_run_cons, disasm_step_code (⟨a, false, false⟩ : DisState) w hw rfl rfl,
    hdec, if_neg (by decide)]
  rfl

theorem unknown_decodes_and_continues_witness :
    ((natToBits 32 63 : Bits) ≠ []) ∧ lookup_miss (natToBits 32 63) ∧
      ((decode_instruction (natToBits 32 63)).1 = "UNKNOWN" ∧
        disasm_run (⟨496, false, false⟩ : DisState) [natToBits 32 63] =
          ((disasm_run (⟨496 + 4, false, false⟩ : DisState) []).1,
            instrLine 496 (natToBits 32 63) ::
              (disasm_run (⟨496 + 4, false, false⟩ : DisState) []).2)) :=
  ⟨by decide, by decide,
    unknown_decodes_and_continues 496 (natToBits 32 63) [] (by decide) (by decide)⟩

/-- C5: once a word decodes to the terminator mnemonic BREAK while the
stream is still in the code section, that word itself is emitted as a
decoded instruction line, and every later word is emitted as a data line
(the original word as an unsigned value, never re-decoded) for the
remainder of the stream. -/
theorem break_terminates_code (pre : List Bits) (w : Bits) (post : List Bits)
    (hw : w ≠ []) (hbrk : (decode_instruction w).1 = "BREAK")
    (hb : (disasm_run init_state pre).1.hit_break = false) :
    (disasm_run init_state (pre ++ w :: post)).2 =
      (disasm_run init_state pre).2 ++
        instrLine (disasm_run init_state pre).1.curr_addr w ::
          dataLines ((disasm_run init_state pre).1.curr_addr + 4) post := by
  have hd : (disasm_run init_state pre).1.in_data_section = false :=
    run_code_inv pre init_state rfl rfl hb
  rw [disasm_run_append]
  simp only
  congr 1
  rw [disasm_run_cons, disasm_step_code _ w hw hb hd, if_pos hbrk]
  have hdata := disasm_run_break post
    ⟨(disasm_run init_state pre).1.curr_addr + 4, true, false⟩ rfl
  simp [hdata.1]

theorem break_terminates_code_witness :
    (break_word ≠ []) ∧ (decode_instruction break_word).1 = "BREAK" ∧
      (disasm_run init_state [zero_word]).1.hit_break = false ∧
      (disasm_run init_state ([zero_word] ++ break_word :: [zero_word])).2 =
        (disasm_run init_state [zero_word]).2 ++
          instrLine (disasm_run init_state [zero_word]).1.curr_addr break_word ::
            dataLines ((disasm_run init_state [zero_word]).1.curr_addr + 4) [zero_word] :=
  ⟨by decide, by decide, by decide,
    break_terminates_code [zero_word] break_word [zero_word]
      (by decide) (by decide) (by decide)⟩

/-- C6 as stated fails on the code: calling disassemble twice on the same
instance does not give the same Program, because the address counter
persists across invocations. -/
theorem second_invocation_differs :
    second_invocation [zero_word] ≠ (disasm_run init_state [zero_word]).2 := by
  decide

/-- C6 amended: each run is a pure function of the words and the entry
value of the instance address counter, but the counter is never reset, so
a second call of disassemble on the same instance produces the Program of
a fresh run whose addresses start at start_addr + 4 times the number of
non-blank lines, not the original Program. -/
theorem second_invocation_shifted (ws : List Bits) :
    second_invocation ws =
      (disasm_run
        (⟨start_addr + 4 * (load_binary ws).length, false, false⟩ : DisState) ws).2 := by
  unfold second_invocation
  rw [disasm_run_addr]
  rfl

/-- C10: when the input has no non-blank lines the loop produces an empty
list of output lines, and the output-writing block, which reads the
element output_lines[0] unconditionally, fails with the Python IndexError
(modelled as none) instead of producing a Program or a structured error. -/
theorem empty_input_write_fails (raw : List Bits) (h : ∀ l ∈ raw, l = []) :
    (disasm_run init_state (load_binary raw)).2 = [] ∧
      disassemble_to_file raw = none := by
  have hl : load_binary raw = [] := by
    simp only [load_binary]
    rw [List.filter_eq_nil_iff]
    intro a ha
    simp [h a ha]
  constructor
  · rw [hl]
    rfl
  · simp [disassemble_to_file, hl, disasm_run, write_output]

theorem empty_input_write_fails_witness :
    (∀ l ∈ ([[]] : List Bits), l = []) ∧
      ((disasm_run init_state (load_binary [[]])).2 = [] ∧
        disassemble_to_file [[]] = none) :=
  ⟨by decide, empty_input_write_fails [[]] (by decide)⟩
